import Mathlib

/-!
# Migrations command (cmd/migrations/main.go)

A shallow embedding of the batch migration tool: the batching loops
`migrateUp` / `migrateDown`, the configuration resolver `loadConfig`, the
directory navigator `changeDir` and the entry point `main`.

Effects are made explicit.  Every observable action (a printed line, a call
into the migration engine, a change of working directory) is appended to a
list of `Event`s in the order in which the Go program performs it.
-/

namespace Migrations

/-! ## The migration engine (github.com/golang-migrate/migrate/v4) -/

/-- Go `error` values returned by the engine.  `ErrNoChange` is the sentinel
`migrate.ErrNoChange`; every other error value is some `other`. -/
inductive MigrateErr where
  | ErrNoChange
  | other (msg : String)
  deriving DecidableEq, Repr

/-- Direction of a batch: `m.Up()` in `migrateUp`, `m.Down()` in `migrateDown`. -/
inductive Direction where
  | up
  | down
  deriving DecidableEq, Repr

/-- The engine as the program sees it.  `new` is `migrate.New(sourceURL,
databaseURL)`; `up` and `down` are `m.Up()` and `m.Down()`: they return a Go
error (`none` is `nil`) and the engine's next internal state. -/
structure Engine (σ : Type) where
  new : String → String → Except MigrateErr σ
  up : σ → Option MigrateErr × σ
  down : σ → Option MigrateErr × σ

/-- The step call of a direction. -/
def Engine.step {σ : Type} (eng : Engine σ) : Direction → σ → Option MigrateErr × σ
  | .up => eng.up
  | .down => eng.down

/-- Engine state after `k` consecutive step calls in direction `d`. -/
def Engine.stateAfter {σ : Type} (eng : Engine σ) (d : Direction) : Nat → σ → σ
  | 0, s => s
  | k + 1, s => Engine.stateAfter eng d k (eng.step d s).2

/-- What the engine answers to step call number `k + 1` (calls are numbered
from 1 in the prose, from 0 here) when only steps of direction `d` are made. -/
def Engine.reply {σ : Type} (eng : Engine σ) (d : Direction) (s : σ) (k : Nat) :
    Option MigrateErr :=
  (eng.step d (Engine.stateAfter eng d k s)).1

/-! ## Output and events -/

/-- Lines written to standard output with `fmt.Println` / `fmt.Printf`. -/
inductive Msg where
  /-- the five banner lines printed first by `main` -/
  | banner (line : Fin 5)
  /-- Text "\nЗапуск миграций вверх (применение изменений)..." resp. "... вниз (откат изменений)..." -/
  | starting (d : Direction)
  /-- Text "Миграция %d выполнена.\n" resp. "Миграция %d откатана.\n" -/
  | progress (d : Direction) (index : Int)
  /-- Text "Миграции успешно применены!" resp. "Миграции успешно откатаны!" -/
  | success (d : Direction)
  /-- Text "\nНеизвестный аргумент: %s\n" -/
  | unknownArg (arg : String)
  /-- Text "Укажите флаг --up или --down" -/
  | needDirection
  deriving DecidableEq, Repr

/-- The text of each output line, as in the Go source. -/
def Msg.text : Msg → String
  | .banner 0 => "Миграции:"
  | .banner 1 => "--up для применения миграций вверх."
  | .banner 2 => "--down для отката миграций вниз."
  | .banner 3 => "--batch для указания размера пачки миграций (по умолчанию 3)."
  | .banner _ => "Укажите путь к папке миграций и ссылку на базу данных."
  | .starting .up => "\nЗапуск миграций вверх (применение изменений)..."
  | .starting .down => "\nЗапуск миграций вниз (откат изменений)..."
  | .progress .up i => "Миграция " ++ toString i ++ " выполнена."
  | .progress .down i => "Миграция " ++ toString i ++ " откатана."
  | .success .up => "Миграции успешно применены!"
  | .success .down => "Миграции успешно откатаны!"
  | .unknownArg arg => "\nНеизвестный аргумент: " ++ arg
  | .needDirection => "Укажите флаг --up или --down"

/-- Lines written through package `log` (standard error). -/
inductive LogMsg where
  /-- Text "Не задано подключение к базе данных. ..." (`log.Fatal` in `loadConfig`) -/
  | noDatabaseURL
  /-- Text "Ошибка перехода в папку миграций: %v" -/
  | changeDirFailed
  /-- Text "Успешно перешли в: %s" -/
  | changedTo (absDir : String)
  /-- Text "Ошибка при миграции вверх: %v" resp. "Ошибка при откате миграции: %v" -/
  | migrateFailed (d : Direction) (err : MigrateErr)
  /-- the message and usage text package `flag` prints when parsing fails -/
  | flagError
  deriving DecidableEq, Repr

/-- Observable actions of the program, in program order. -/
inductive Event where
  | print (m : Msg)
  | log (m : LogMsg)
  | chdir (absDir : String)
  | engineNew (sourceURL databaseURL : String)
  | engineStep (d : Direction)
  | engineClose
  deriving DecidableEq, Repr

/-- Is the event a step call (`m.Up()` or `m.Down()`)? -/
def Event.isStep : Event → Bool
  | .engineStep _ => true
  | _ => false

/-- Is the event a step call of direction `d`? -/
def Event.isStepOf (d : Direction) : Event → Bool
  | .engineStep d' => decide (d' = d)
  | _ => false

/-- Is the event any call into the engine (`migrate.New`, `Up`, `Down`, `Close`)? -/
def Event.isEngineCall : Event → Bool
  | .engineNew _ _ => true
  | .engineStep _ => true
  | .engineClose => true
  | _ => false

/-- Is the event a progress line? -/
def Event.isProgress : Event → Bool
  | .print (.progress _ _) => true
  | _ => false

/-- Is the event a change of working directory? -/
def Event.isChdir : Event → Bool
  | .chdir _ => true
  | _ => false

/-- The lines printed to standard output, in order. -/
def printed : List Event → List Msg
  | [] => []
  | .print m :: es => m :: printed es
  | _ :: es => printed es

/-- Number of step calls in a trace. -/
def stepCalls (es : List Event) : Nat := es.countP Event.isStep

/-- Number of `Close` calls in a trace. -/
def closeCalls (es : List Event) : Nat := es.count Event.engineClose

/-- Number of calls into the engine in a trace. -/
def engineCalls (es : List Event) : Nat := es.countP Event.isEngineCall

/-- Number of progress lines in a trace. -/
def progressLines (es : List Event) : Nat := es.countP Event.isProgress

/-! ## migrateUp / migrateDown -/

/-- Outcome of a batch: the events it performed and the Go error it returned
(`none` is `nil`). -/
structure BatchResult where
  events : List Event
  err : Option MigrateErr
  deriving DecidableEq, Repr

/-- The loop `for i := 0; i < batchSize; i++ { ... }` of `migrateUp` /
`migrateDown`, entered with loop variable `i` and engine state `s`.  The
result's `err` is `some e` when the body executed `return err`, and `none`
when the loop ran to its end. -/
def stepLoop {σ : Type} (eng : Engine σ) (d : Direction) (batchSize : Int) (i : Int) (s : σ) :
    BatchResult :=
  if i < batchSize then
    let r := eng.step d s
    if r.1 ≠ none ∧ r.1 ≠ some MigrateErr.ErrNoChange then
      { events := [Event.engineStep d], err := r.1 }
    else
      let rest := stepLoop eng d batchSize (i + 1) r.2
      { events := Event.engineStep d :: Event.print (Msg.progress d (i + 1)) :: rest.events,
        err := rest.err }
  else
    { events := [], err := none }
termination_by (batchSize - i).toNat
decreasing_by omega

/-- The common body of `migrateUp` and `migrateDown` (the two Go functions
differ only in the step they call and in their messages): construct the
engine with `migrate.New("file://"+dbURL, dbURL)`, return its error if it
fails, `defer m.Close()`, run the loop, print the final line when the loop
ends without a `return err`. -/
def migrate {σ : Type} (eng : Engine σ) (d : Direction) (batchSize : Int) (dbURL : String) :
    BatchResult :=
  match eng.new ("file://" ++ dbURL) dbURL with
  | .error e => { events := [Event.engineNew ("file://" ++ dbURL) dbURL], err := some e }
  | .ok s =>
    let body := stepLoop eng d batchSize 0 s
    match body.err with
    | some e =>
      { events := Event.engineNew ("file://" ++ dbURL) dbURL :: body.events ++ [Event.engineClose],
        err := some e }
    | none =>
      { events := Event.engineNew ("file://" ++ dbURL) dbURL :: body.events ++
          [Event.print (Msg.success d), Event.engineClose],
        err := none }

/-- `migrateUp(batchSize, dbURL)`. -/
def migrateUp {σ : Type} (eng : Engine σ) (batchSize : Int) (dbURL : String) : BatchResult :=
  migrate eng Direction.up batchSize dbURL

/-- `migrateDown(batchSize, dbURL)`. -/
def migrateDown {σ : Type} (eng : Engine σ) (batchSize : Int) (dbURL : String) : BatchResult :=
  migrate eng Direction.down batchSize dbURL

/-! ## Command-line flags (package flag of the Go standard library) -/

/-- Values of the three flags registered by `loadConfig`. -/
structure Flags where
  migrationsDir : String
  dbURL : String
  batch : Int
  deriving DecidableEq, Repr

/-- The defaults given at registration: `flag.String("migrations-dir", "", _)`,
`flag.String("db-url", "", _)`, `flag.Int("batch", 3, _)`. -/
def Flags.defaults : Flags := { migrationsDir := "", dbURL := "", batch := 3 }

/-- Ways in which `flag.Parse` fails. -/
inductive FlagErr where
  /-- bad flag syntax -/
  | badSyntax (arg : String)
  /-- flag provided but not defined -/
  | notDefined (name : String)
  /-- the undefined flag is `help` or `h`: `flag.ErrHelp` -/
  | help
  /-- flag needs an argument -/
  | needsArgument (name : String)
  /-- invalid value for flag -/
  | invalidValue (name value : String)
  deriving DecidableEq, Repr

/-- Go's `lower(c)` of package strconv, `c | ('x' - 'X')`, as a byte value. -/
def lowerByte (c : Char) : Nat := c.toNat ||| 32

/-- The value of one digit in `strconv.ParseUint`: `0`-`9`, then the letters
from 10 on; `none` for any other byte. -/
def digitValue (c : Char) : Option Nat :=
  if 48 ≤ c.toNat ∧ c.toNat ≤ 57 then some (c.toNat - 48)
  else if 97 ≤ lowerByte c ∧ lowerByte c ≤ 122 then some (lowerByte c - 97 + 10)
  else none

/-- The largest `uint64`. -/
def maxUint64 : Nat := 2 ^ 64 - 1

/-- The digit loop of `strconv.ParseUint` called with base 0 (so an
underscore is skipped) and bit size 64, on the text after the base marker;
`n` is the value read so far.  `none` is a syntax or range error. -/
def parseDigits (base : Nat) : List Char → Nat → Option Nat
  | [], n => some n
  | c :: cs, n =>
    if c = '_' then parseDigits base cs n
    else
      match digitValue c with
      | none => none
      | some d =>
        if d ≥ base then none
        else if n ≥ maxUint64 / base + 1 then none
        else if n * base + d > maxUint64 then none
        else parseDigits base cs (n * base + d)

/-- What `underscoreOK` of package strconv saw last. -/
inductive Saw where
  | start
  | digit
  | underscore
  | other
  deriving DecidableEq, Repr

/-- The scan of `underscoreOK` over the number proper: an underscore must
follow a digit and be followed by a digit. -/
def underscoreScan (hex : Bool) : List Char → Saw → Bool
  | [], saw => decide (saw ≠ Saw.underscore)
  | c :: cs, saw =>
    if (48 ≤ c.toNat ∧ c.toNat ≤ 57) ∨ (hex = true ∧ 97 ≤ lowerByte c ∧ lowerByte c ≤ 102) then
      underscoreScan hex cs Saw.digit
    else if c = '_' then
      if saw ≠ Saw.digit then false else underscoreScan hex cs Saw.underscore
    else if saw = Saw.underscore then false
    else underscoreScan hex cs Saw.other

/-- The function `underscoreOK` of package strconv: an optional sign, an
optional base marker (which counts as a digit), then the number proper. -/
def underscoreOK (s : List Char) : Bool :=
  let t := match s with
    | c :: cs => if c = '-' ∨ c = '+' then cs else s
    | [] => s
  match t with
  | c0 :: c1 :: rest =>
    if c0 = '0' ∧ (lowerByte c1 = 98 ∨ lowerByte c1 = 111 ∨ lowerByte c1 = 120) then
      underscoreScan (decide (lowerByte c1 = 120)) rest Saw.digit
    else underscoreScan false t Saw.start
  | _ => underscoreScan false t Saw.start

/-- The call `strconv.ParseUint(s, 0, 64)`: the base is read from the marker
(`0b`, `0o`, `0x`, a leading `0` for octal, decimal otherwise), underscores
are allowed as digit separators.  `none` is any error. -/
def strconvParseUint (s : List Char) : Option Nat :=
  match s with
  | [] => none
  | c0 :: tl =>
    let bd : Nat × List Char :=
      if c0 = '0' then
        match tl with
        | c1 :: c2 :: rest =>
          if lowerByte c1 = 98 then (2, c2 :: rest)
          else if lowerByte c1 = 111 then (8, c2 :: rest)
          else if lowerByte c1 = 120 then (16, c2 :: rest)
          else (8, tl)
        | _ => (8, tl)
      else (10, s)
    match parseDigits bd.1 bd.2 0 with
    | none => none
    | some n => if '_' ∈ bd.2 ∧ underscoreOK s = false then none else some n

/-- The call `strconv.ParseInt(s, 0, strconv.IntSize)` made by the integer
flag, on a platform with 64-bit `int`: an optional sign, then
`strconv.ParseUint`, then the range check.  `none` is any error. -/
def strconvParseInt (str : String) : Option Int :=
  match str.toList with
  | [] => none
  | c :: cs =>
    match strconvParseUint (if c = '+' ∨ c = '-' then cs else c :: cs) with
    | none => none
    | some un =>
      if c ≠ '-' ∧ un ≥ 2 ^ 63 then none
      else if c = '-' ∧ un > 2 ^ 63 then none
      else some (if c = '-' then -(un : Int) else (un : Int))

/-- Is `name` one of the registered flags? -/
def isDefined (name : String) : Bool :=
  name = "migrations-dir" || name = "db-url" || name = "batch"

/-- Store a value in a registered flag (`flag.Value.Set`).  `parseInt` is
`strconv.ParseInt(value, 0, strconv.IntSize)`, used by the integer flag. -/
def setFlag (parseInt : String → Option Int) (fl : Flags) (name value : String) :
    Except FlagErr Flags :=
  if name = "migrations-dir" then .ok { fl with migrationsDir := value }
  else if name = "db-url" then .ok { fl with dbURL := value }
  else
    match parseInt value with
    | some n => .ok { fl with batch := n }
    | none => .error (FlagErr.invalidValue name value)

/-- Split the text after the dashes at its first `=`: the part before it and,
when there is one, the part after it.  (The caller has already taken off the
first character, which cannot be `=`.) -/
def splitAtEq : List Char → List Char × Option (List Char)
  | [] => ([], none)
  | c :: cs =>
    if c = '=' then ([], some cs)
    else (c :: (splitAtEq cs).1, (splitAtEq cs).2)

/-- What `FlagSet.parseOne` makes of one argument before it looks the flag
up. -/
inductive Arg where
  /-- not a flag (shorter than two bytes, or no leading `-`): parsing ends -/
  | nonFlag
  /-- the argument `--`: parsing ends -/
  | terminator
  /-- bad flag syntax: nothing, `-` or `=` right after the dashes -/
  | bad
  /-- a flag `-name`, `--name`, `-name=value` or `--name=value` -/
  | flag (name : String) (value : Option String)
  deriving DecidableEq, Repr

/-- The first half of `FlagSet.parseOne`: take off one or two dashes and
split the rest at the first `=` that is not its first character.  Only ASCII
characters are inspected, so reading by character agrees with Go reading by
byte. -/
def readArg (s : String) : Arg :=
  match s.toList with
  | c0 :: c :: cs =>
    if c0 ≠ '-' then Arg.nonFlag
    else if c = '-' ∧ cs = [] then Arg.terminator
    else
      match (if c = '-' then cs else c :: cs) with
      | [] => Arg.bad
      | n0 :: ns =>
        if n0 = '-' ∨ n0 = '=' then Arg.bad
        else Arg.flag (String.mk (n0 :: (splitAtEq ns).1)) ((splitAtEq ns).2.map String.mk)
  | _ => Arg.nonFlag

/-- `flag.Parse()` on the argument list `os.Args[1:]`: the loop of
`FlagSet.Parse` around `FlagSet.parseOne`, for a flag set that holds the three
non-boolean flags above.  An argument that is not a flag ends parsing, `--`
ends parsing, and every other argument must be a registered flag with its
value, given after `=` or as the next argument. -/
def flagParse (parseInt : String → Option Int) : Flags → List String → Except FlagErr Flags
  | fl, [] => .ok fl
  | fl, s :: rest =>
    match readArg s with
    | Arg.nonFlag => .ok fl
    | Arg.terminator => .ok fl
    | Arg.bad => .error (FlagErr.badSyntax s)
    | Arg.flag name value =>
      if isDefined name = false then
        if name = "help" ∨ name = "h" then .error FlagErr.help
        else .error (FlagErr.notDefined name)
      else
        match value with
        | some v =>
          match setFlag parseInt fl name v with
          | .error e => .error e
          | .ok fl' => flagParse parseInt fl' rest
        | none =>
          match rest with
          | [] => .error (FlagErr.needsArgument name)
          | v :: rest' =>
            match setFlag parseInt fl name v with
            | .error e => .error e
            | .ok fl' => flagParse parseInt fl' rest'

/-- Exit status chosen by `flag.Parse` (the command-line flag set uses
`flag.ExitOnError`): 0 for `flag.ErrHelp`, 2 for any other error. -/
def FlagErr.exitCode : FlagErr → Nat
  | .help => 0
  | _ => 2

/-! ## loadConfig -/

/-- The Go struct `Config`. -/
structure Config where
  MigrationsDir : String
  BatchSize : Int
  DatabaseURL : String
  deriving DecidableEq, Repr

/-- `os.Getenv`: the value of the variable, or the empty string when it is
not set. -/
def Getenv (env : String → Option String) (key : String) : String :=
  (env key).getD ""

/-- Lines 78-104 of `loadConfig`: the resolution of the configuration from
the parsed flags and the environment.  `none` is the `log.Fatal` on a
missing connection string. -/
def resolveConfig (fl : Flags) (env : String → Option String) : Option Config :=
  let dirEnv := Getenv env "MIGRATIONS_DIR"
  let dbURLEnv := Getenv env "DATABASE_URL"
  let dir := fl.migrationsDir
  let dir := if dir = "" then dirEnv else dir
  let dir := if dir = "" then "./migrations" else dir
  let dbURL := fl.dbURL
  let dbURL := if dbURL = "" then dbURLEnv else dbURL
  if dbURL = "" then none
  else some { MigrationsDir := dir, BatchSize := fl.batch, DatabaseURL := dbURL }

/-- Outcome of `loadConfig`: what it logged, and either the configuration or
the exit status with which it ended the process. -/
structure ConfigResult where
  events : List Event
  result : Except Nat Config
  deriving Repr

/-- `loadConfig()`: register and parse the flags, then resolve the
configuration.  `args` is `os.Args[1:]`. -/
def loadConfig (parseInt : String → Option Int) (args : List String)
    (env : String → Option String) : ConfigResult :=
  match flagParse parseInt Flags.defaults args with
  | .error e => { events := [Event.log LogMsg.flagError], result := .error e.exitCode }
  | .ok fl =>
    match resolveConfig fl env with
    | none => { events := [Event.log LogMsg.noDatabaseURL], result := .error 1 }
    | some cfg => { events := [], result := .ok cfg }

/-! ## changeDir -/

/-- The part of the file system the program touches.  `cwd` is the working
directory as the kernel reports it, `getwdOk` tells whether `os.Getwd`
succeeds, `exist p` tells whether `p` exists (`os.Stat(p)` does not fail with
a not-exist error), `canEnter p` whether the process may make `p` its working
directory, and `realpath p` is the directory the path `p` leads to once the
symbolic links on the way are followed (`p` itself when there is none). -/
structure FS where
  cwd : String
  getwdOk : Bool
  exist : String → Bool
  canEnter : String → Bool
  realpath : String → String

/-- Split a path at its slashes. -/
def splitSlash : List Char → List (List Char)
  | [] => [[]]
  | c :: cs =>
    if c = '/' then [] :: splitSlash cs
    else
      match splitSlash cs with
      | [] => [[c]]
      | x :: xs => (c :: x) :: xs

/-- One element of a path processed by `filepath.Clean`; `stack` holds the
elements kept so far, last one first.  Empty elements and `.` are dropped, `..`
removes the last kept element, is dropped at the root, and is kept in front
of a relative path. -/
def cleanStep (rooted : Bool) (stack : List (List Char)) (elem : List Char) :
    List (List Char) :=
  if elem = [] ∨ elem = ['.'] then stack
  else if elem = ['.', '.'] then
    match stack with
    | [] => if rooted then [] else [elem]
    | top :: below =>
      if top = ['.', '.'] then (if rooted then stack else elem :: stack) else below
  else elem :: stack

/-- `filepath.Clean` on Unix. -/
def filepathClean (path : String) : String :=
  if path = "" then "."
  else
    let rooted := path.toList.head? = some '/'
    let kept := ((splitSlash path.toList).foldl (cleanStep rooted) []).reverse
    if rooted then String.mk ('/' :: List.intercalate ['/'] kept)
    else if kept = [] then "."
    else String.mk (List.intercalate ['/'] kept)

/-- `filepath.Join` of two elements: leading empty elements are skipped, the
rest is joined with `/` and cleaned. -/
def filepathJoin (a b : String) : String :=
  if a ≠ "" then filepathClean (a ++ "/" ++ b)
  else if b ≠ "" then filepathClean b
  else ""

/-- `filepath.Abs` on Unix: an absolute path is cleaned; a relative path is
joined to the working directory (and fails when `os.Getwd` fails). -/
def filepathAbs (fs : FS) (path : String) : Option String :=
  if path.toList.head? = some '/' then some (filepathClean path)
  else if fs.getwdOk then some (filepathJoin fs.cwd path)
  else none

/-- `os.Chdir`: the system call follows symbolic links, so the working
directory becomes the directory that `dir` leads to. -/
def osChdir (fs : FS) (dir : String) : Option FS :=
  if fs.exist dir && fs.canEnter dir then some { fs with cwd := fs.realpath dir } else none

/-- The errors built by `changeDir`. -/
inductive DirErr where
  /-- Text "ошибка преобразования пути: %w" -/
  | absFailed
  /-- Text "папка не найдена: %s" -/
  | notFound (absDir : String)
  /-- Text "ошибка перехода в папку: %w" -/
  | chdirFailed (absDir : String)
  deriving DecidableEq, Repr

/-- Outcome of `changeDir`: the file system after the call, the events and
the returned error (`none` is `nil`). -/
structure DirResult where
  fs : FS
  events : List Event
  err : Option DirErr

/-- `changeDir(dir)`. -/
def changeDir (fs : FS) (dir : String) : DirResult :=
  match filepathAbs fs dir with
  | none => { fs := fs, events := [], err := some DirErr.absFailed }
  | some absDir =>
    if fs.exist absDir = false then
      { fs := fs, events := [], err := some (DirErr.notFound absDir) }
    else
      match osChdir fs absDir with
      | none => { fs := fs, events := [], err := some (DirErr.chdirFailed absDir) }
      | some fs' =>
        { fs := fs', events := [Event.chdir absDir, Event.log (LogMsg.changedTo absDir)],
          err := none }

/-! ## main -/

/-- How the process ends: `main` returns (exit status 0) or the process is
ended by `os.Exit(code)` (through `log.Fatal`, `log.Fatalf` or `flag.Parse`). -/
inductive Exit where
  | returned
  | exited (code : Nat)
  deriving DecidableEq, Repr

/-- A run of the program: its events, the file system at the end and how the
process ended. -/
structure Run where
  events : List Event
  fs : FS
  exit : Exit

/-- The five `fmt.Println` calls that open `main`. -/
def bannerEvents : List Event :=
  [Event.print (Msg.banner 0), Event.print (Msg.banner 1), Event.print (Msg.banner 2),
   Event.print (Msg.banner 3), Event.print (Msg.banner 4)]

/-- The branch of `main` for one direction: announce it, run the batch, and
`log.Fatalf` when the batch returns an error. -/
def runDirection {σ : Type} (eng : Engine σ) (d : Direction) (cfg : Config)
    (before : List Event) (fs : FS) : Run :=
  let b := match d with
    | .up => migrateUp eng cfg.BatchSize cfg.DatabaseURL
    | .down => migrateDown eng cfg.BatchSize cfg.DatabaseURL
  match b.err with
  | some e =>
    { events := before ++ Event.print (Msg.starting d) :: b.events ++
        [Event.log (LogMsg.migrateFailed d e)],
      fs := fs, exit := Exit.exited 1 }
  | none =>
    { events := before ++ Event.print (Msg.starting d) :: b.events, fs := fs,
      exit := Exit.returned }

/-- The function `main`.  `args` is `os.Args[1:]`, so `len(os.Args) > 1` holds
when `args` is not empty and `os.Args[1]` is its head. -/
def main {σ : Type} (parseInt : String → Option Int) (eng : Engine σ) (args : List String)
    (env : String → Option String) (fs : FS) : Run :=
  let c := loadConfig parseInt args env
  match c.result with
  | .error code => { events := bannerEvents ++ c.events, fs := fs, exit := Exit.exited code }
  | .ok cfg =>
    let r := changeDir fs cfg.MigrationsDir
    match r.err with
    | some _ =>
      { events := bannerEvents ++ c.events ++ r.events ++ [Event.log LogMsg.changeDirFailed],
        fs := r.fs, exit := Exit.exited 1 }
    | none =>
      let before := bannerEvents ++ c.events ++ r.events
      match args with
      | arg :: _ =>
        if arg = "--up" then runDirection eng Direction.up cfg before r.fs
        else if arg = "--down" then runDirection eng Direction.down cfg before r.fs
        else { events := before ++ [Event.print (Msg.unknownArg arg)], fs := r.fs,
               exit := Exit.returned }
      | [] =>
        { events := before ++ [Event.print Msg.needDirection], fs := r.fs,
          exit := Exit.returned }

/-! ## Concrete engines and environments used in the examples -/

/-- An engine whose state is the number of pending migrations: a step applies
one migration when there is one, and answers `ErrNoChange` when there is
none.  Construction leaves `pending` migrations to apply. -/
def countingEngine (pending : Nat) : Engine Nat where
  new := fun _ _ => .ok pending
  up := fun s => if s = 0 then (some MigrateErr.ErrNoChange, 0) else (none, s - 1)
  down := fun s => if s = 0 then (some MigrateErr.ErrNoChange, 0) else (none, s - 1)

/-- An engine that applies `good` steps and then fails every step with the
error `e`. -/
def failingEngine (good : Nat) (e : MigrateErr) : Engine Nat where
  new := fun _ _ => .ok good
  up := fun s => if s = 0 then (some e, 0) else (none, s - 1)
  down := fun s => if s = 0 then (some e, 0) else (none, s - 1)

/-- An engine that cannot be constructed. -/
def brokenEngine (e : MigrateErr) : Engine Nat where
  new := fun _ _ => .error e
  up := fun s => (none, s)
  down := fun s => (none, s)

/-- An environment given by a list of bindings. -/
def envOf (bindings : List (String × String)) : String → Option String :=
  fun key => (bindings.find? (fun b => b.1 = key)).map Prod.snd

/-- A file system without symbolic links in which exactly the listed
directories exist and can be entered. -/
def fsOf (cwd : String) (dirs : List String) : FS :=
  { cwd := cwd, getwdOk := true, exist := fun p => decide (p ∈ dirs),
    canEnter := fun _ => true, realpath := fun p => p }

/-- A file system in which the listed directories exist and the listed
symbolic links (path, target directory) exist as well. -/
def fsWithLinks (cwd : String) (dirs : List String) (links : List (String × String)) : FS :=
  { cwd := cwd, getwdOk := true,
    exist := fun p => decide (p ∈ dirs) || (links.find? (fun l => l.1 = p)).isSome,
    canEnter := fun _ => true,
    realpath := fun p => ((links.find? (fun l => l.1 = p)).map Prod.snd).getD p }

/-! ## Facts about the loop -/

/-- The events of `n` loop iterations that do not return, the first of them
entered with loop variable `i`. -/
def okEvents (d : Direction) : Int → Nat → List Event
  | _, 0 => []
  | i, n + 1 => Event.engineStep d :: Event.print (Msg.progress d (i + 1)) :: okEvents d (i + 1) n

/-- The progress lines with indices `i + 1, ..., i + n`. -/
def progressMsgs (d : Direction) : Int → Nat → List Msg
  | _, 0 => []
  | i, n + 1 => Msg.progress d (i + 1) :: progressMsgs d (i + 1) n

theorem printed_append (xs ys : List Event) : printed (xs ++ ys) = printed xs ++ printed ys := by
  induction xs with
  | nil => rfl
  | cons x xs ih => cases x <;> simp [printed, ih]

theorem stepCalls_okEvents (d : Direction) (i : Int) (n : Nat) :
    stepCalls (okEvents d i n) = n := by
  induction n generalizing i with
  | zero => rfl
  | succ n ih =>
    have h := ih (i + 1)
    simp only [stepCalls] at h
    simp [okEvents, stepCalls, Event.isStep, h]

theorem closeCalls_okEvents (d : Direction) (i : Int) (n : Nat) :
    closeCalls (okEvents d i n) = 0 := by
  induction n generalizing i with
  | zero => rfl
  | succ n ih =>
    have h := ih (i + 1)
    simp only [closeCalls] at h
    simp [okEvents, closeCalls, h]

theorem progressLines_okEvents (d : Direction) (i : Int) (n : Nat) :
    progressLines (okEvents d i n) = n := by
  induction n generalizing i with
  | zero => rfl
  | succ n ih =>
    have h := ih (i + 1)
    simp only [progressLines] at h
    simp [okEvents, progressLines, Event.isProgress, h]

theorem printed_okEvents (d : Direction) (i : Int) (n : Nat) :
    printed (okEvents d i n) = progressMsgs d i n := by
  induction n generalizing i with
  | zero => rfl
  | succ n ih => simp [okEvents, printed, progressMsgs, ih]

/-- The progress lines carry the indices `i + 1, i + 2, ..., i + n` in that order. -/
theorem progressMsgs_eq_map (d : Direction) (i : Int) (n : Nat) :
    progressMsgs d i n = (List.range n).map (fun (j : Nat) => Msg.progress d (i + 1 + (j : Int))) := by
  induction n generalizing i with
  | zero => rfl
  | succ n ih =>
    rw [progressMsgs, ih, List.range_succ_eq_map, List.map_cons, List.map_map]
    have h0 : i + 1 + ((0 : Nat) : Int) = i + 1 := by simp
    rw [h0]
    congr 1
    apply List.map_congr_left
    intro j _
    show Msg.progress d (i + 1 + 1 + (j : Int)) = Msg.progress d (i + 1 + ((j + 1 : Nat) : Int))
    congr 1
    push_cast
    ring

/-- A loop whose remaining step calls all answer `nil` or `ErrNoChange` runs
to its end: it makes one step call and prints one progress line per
iteration. -/
theorem stepLoop_pass {σ : Type} (eng : Engine σ) (d : Direction) (batchSize : Int) :
    ∀ (n : Nat) (i : Int) (s : σ), (batchSize - i).toNat = n →
      (∀ j, j < n → eng.reply d s j = none ∨ eng.reply d s j = some MigrateErr.ErrNoChange) →
      stepLoop eng d batchSize i s = { events := okEvents d i n, err := none } := by
  intro n
  induction n with
  | zero =>
    intro i s hn _
    rw [stepLoop]
    have : ¬ i < batchSize := by omega
    simp [this, okEvents]
  | succ n ih =>
    intro i s hn hrep
    rw [stepLoop]
    have hlt : i < batchSize := by omega
    have h0 := hrep 0 (Nat.succ_pos n)
    have hcond : ¬ ((eng.step d s).1 ≠ none ∧ (eng.step d s).1 ≠ some MigrateErr.ErrNoChange) := by
      simp only [Engine.reply, Engine.stateAfter] at h0
      rcases h0 with h0 | h0 <;> simp [h0]
    have hrest := ih (i + 1) (eng.step d s).2 (by omega) (fun j hj => by
      have := hrep (j + 1) (Nat.succ_lt_succ hj)
      simpa [Engine.reply, Engine.stateAfter] using this)
    simp only [hlt, if_true, hcond, if_false, hrest, okEvents]

/-- A loop in which step call `k + 1` is the first to answer an error other
than `ErrNoChange` returns that error right after that call. -/
theorem stepLoop_fail {σ : Type} (eng : Engine σ) (d : Direction) (batchSize : Int)
    (e : MigrateErr) (he : e ≠ MigrateErr.ErrNoChange) :
    ∀ (k : Nat) (i : Int) (s : σ), (k : Int) < batchSize - i →
      (∀ j, j < k → eng.reply d s j = none ∨ eng.reply d s j = some MigrateErr.ErrNoChange) →
      eng.reply d s k = some e →
      stepLoop eng d batchSize i s =
        { events := okEvents d i k ++ [Event.engineStep d], err := some e } := by
  intro k
  induction k with
  | zero =>
    intro i s hk _ hrep
    rw [stepLoop]
    have hlt : i < batchSize := by omega
    simp only [Engine.reply, Engine.stateAfter] at hrep
    simp [hlt, hrep, he, okEvents]
  | succ k ih =>
    intro i s hk hbefore hrep
    rw [stepLoop]
    have hlt : i < batchSize := by push_cast at hk; omega
    have h0 := hbefore 0 (Nat.succ_pos k)
    have hcond : ¬ ((eng.step d s).1 ≠ none ∧ (eng.step d s).1 ≠ some MigrateErr.ErrNoChange) := by
      simp only [Engine.reply, Engine.stateAfter] at h0
      rcases h0 with h0 | h0 <;> simp [h0]
    have hrest := ih (i + 1) (eng.step d s).2 (by push_cast at hk; omega) (fun j hj => by
      have := hbefore (j + 1) (Nat.succ_lt_succ hj)
      simpa [Engine.reply, Engine.stateAfter] using this)
      (by simpa [Engine.reply, Engine.stateAfter] using hrep)
    simp only [hlt, if_true, hcond, if_false, hrest, okEvents, List.cons_append]

/-- Whatever the engine answers, the loop makes at most `batchSize - i` step
calls (none when that number is not positive). -/
theorem stepLoop_stepCalls_le {σ : Type} (eng : Engine σ) (d : Direction) (batchSize : Int) :
    ∀ (n : Nat) (i : Int) (s : σ), (batchSize - i).toNat = n →
      stepCalls (stepLoop eng d batchSize i s).events ≤ n := by
  intro n
  induction n with
  | zero =>
    intro i s hn
    rw [stepLoop]
    have : ¬ i < batchSize := by omega
    simp [this, stepCalls]
  | succ n ih =>
    intro i s hn
    rw [stepLoop]
    have hlt : i < batchSize := by omega
    have hrest := ih (i + 1) (eng.step d s).2 (by omega)
    simp only [stepCalls] at hrest
    by_cases hcond : (eng.step d s).1 ≠ none ∧ (eng.step d s).1 ≠ some MigrateErr.ErrNoChange
    · simp [hlt, hcond, stepCalls, Event.isStep]
    · simp only [hlt, if_true, hcond, if_false, stepCalls, List.countP_cons, Event.isStep]
      simp only [if_true, Bool.false_eq_true, if_false, add_zero]
      omega

/-- The loop prints a progress line after every step call that does not make
it return: the progress lines are as many as the step calls, less the one
that made the loop return, if any. -/
theorem stepLoop_progress_count {σ : Type} (eng : Engine σ) (d : Direction) (batchSize : Int) :
    ∀ (n : Nat) (i : Int) (s : σ), (batchSize - i).toNat = n →
      progressLines (stepLoop eng d batchSize i s).events +
        (if (stepLoop eng d batchSize i s).err = none then 0 else 1) =
        stepCalls (stepLoop eng d batchSize i s).events := by
  intro n
  induction n with
  | zero =>
    intro i s hn
    rw [stepLoop]
    have : ¬ i < batchSize := by omega
    simp [this, stepCalls, progressLines]
  | succ n ih =>
    intro i s hn
    rw [stepLoop]
    have hlt : i < batchSize := by omega
    have hrest := ih (i + 1) (eng.step d s).2 (by omega)
    simp only [stepCalls, progressLines] at hrest
    by_cases hcond : (eng.step d s).1 ≠ none ∧ (eng.step d s).1 ≠ some MigrateErr.ErrNoChange
    · simp [hlt, hcond, stepCalls, progressLines, Event.isStep, Event.isProgress, hcond.1]
    · simp only [hlt, if_true, hcond, if_false, stepCalls, progressLines, List.countP_cons,
        Event.isStep, Event.isProgress]
      simp only [if_true, Bool.false_eq_true, if_false, add_zero]
      omega

/-! ## Facts about a whole batch -/

/-- The engine call that opens every batch. -/
theorem migrate_head {σ : Type} (eng : Engine σ) (d : Direction) (batchSize : Int)
    (dbURL : String) :
    (migrate eng d batchSize dbURL).events.head? =
      some (Event.engineNew ("file://" ++ dbURL) dbURL) := by
  unfold migrate
  split
  · rfl
  · dsimp only
    split <;> rfl

/-- A batch whose step calls all answer `nil` or `ErrNoChange`. -/
theorem migrate_pass {σ : Type} (eng : Engine σ) (d : Direction) (batchSize : Int)
    (dbURL : String) (s0 : σ) (hnew : eng.new ("file://" ++ dbURL) dbURL = .ok s0)
    (hrep : ∀ j, j < batchSize.toNat →
      eng.reply d s0 j = none ∨ eng.reply d s0 j = some MigrateErr.ErrNoChange) :
    migrate eng d batchSize dbURL =
      { events := Event.engineNew ("file://" ++ dbURL) dbURL :: okEvents d 0 batchSize.toNat ++
          [Event.print (Msg.success d), Event.engineClose],
        err := none } := by
  have hloop := stepLoop_pass eng d batchSize batchSize.toNat 0 s0 (by simp) hrep
  simp only [migrate, hnew, hloop]

/-- A batch in which step call `k + 1` is the first to answer an error other
than `ErrNoChange`. -/
theorem migrate_fail {σ : Type} (eng : Engine σ) (d : Direction) (batchSize : Int)
    (dbURL : String) (s0 : σ) (e : MigrateErr) (k : Nat)
    (hnew : eng.new ("file://" ++ dbURL) dbURL = .ok s0)
    (he : e ≠ MigrateErr.ErrNoChange) (hk : (k : Int) < batchSize)
    (hbefore : ∀ j, j < k →
      eng.reply d s0 j = none ∨ eng.reply d s0 j = some MigrateErr.ErrNoChange)
    (hrep : eng.reply d s0 k = some e) :
    migrate eng d batchSize dbURL =
      { events := Event.engineNew ("file://" ++ dbURL) dbURL ::
          (okEvents d 0 k ++ [Event.engineStep d]) ++ [Event.engineClose],
        err := some e } := by
  have hloop := stepLoop_fail eng d batchSize e he k 0 s0 (by simpa using hk) hbefore hrep
  simp only [migrate, hnew, hloop]

/-- Whatever the engine does, a batch makes at most `max(batchSize, 0)` step
calls. -/
theorem migrate_stepCalls_le {σ : Type} (eng : Engine σ) (d : Direction) (batchSize : Int)
    (dbURL : String) :
    stepCalls (migrate eng d batchSize dbURL).events ≤ batchSize.toNat := by
  unfold migrate
  split
  · simp [stepCalls, Event.isStep]
  · rename_i s _
    have h := stepLoop_stepCalls_le eng d batchSize batchSize.toNat 0 s (by simp)
    dsimp only
    split
    · have h1 : stepCalls (Event.engineNew ("file://" ++ dbURL) dbURL ::
          (stepLoop eng d batchSize 0 s).events ++ [Event.engineClose]) =
          stepCalls (stepLoop eng d batchSize 0 s).events := by
        simp [stepCalls, Event.isStep]
      rw [h1]; exact h
    · have h1 : stepCalls (Event.engineNew ("file://" ++ dbURL) dbURL ::
          (stepLoop eng d batchSize 0 s).events ++
            [Event.print (Msg.success d), Event.engineClose]) =
          stepCalls (stepLoop eng d batchSize 0 s).events := by
        simp [stepCalls, Event.isStep]
      rw [h1]; exact h

theorem stepCalls_pass_events (d : Direction) (n : Nat) (src dsn : String) :
    stepCalls (Event.engineNew src dsn :: okEvents d 0 n ++
      [Event.print (Msg.success d), Event.engineClose]) = n := by
  have h := stepCalls_okEvents d 0 n
  simp only [stepCalls] at h
  simp [stepCalls, Event.isStep, h]

theorem progressLines_pass_events (d : Direction) (n : Nat) (src dsn : String) :
    progressLines (Event.engineNew src dsn :: okEvents d 0 n ++
      [Event.print (Msg.success d), Event.engineClose]) = n := by
  have h := progressLines_okEvents d 0 n
  simp only [progressLines] at h
  simp [progressLines, Event.isProgress, h]

theorem closeCalls_pass_events (d : Direction) (n : Nat) (src dsn : String) :
    closeCalls (Event.engineNew src dsn :: okEvents d 0 n ++
      [Event.print (Msg.success d), Event.engineClose]) = 1 := by
  have h := closeCalls_okEvents d 0 n
  simp only [closeCalls] at h
  simp [closeCalls, h]

theorem printed_pass_events (d : Direction) (n : Nat) (src dsn : String) :
    printed (Event.engineNew src dsn :: okEvents d 0 n ++
      [Event.print (Msg.success d), Event.engineClose]) =
      progressMsgs d 0 n ++ [Msg.success d] := by
  have h := printed_okEvents d 0 n
  simp [printed, printed_append, h]

theorem stepCalls_fail_events (d : Direction) (k : Nat) (src dsn : String) :
    stepCalls (Event.engineNew src dsn :: (okEvents d 0 k ++ [Event.engineStep d]) ++
      [Event.engineClose]) = k + 1 := by
  have h := stepCalls_okEvents d 0 k
  simp only [stepCalls] at h
  simp [stepCalls, Event.isStep, h]

theorem closeCalls_fail_events (d : Direction) (k : Nat) (src dsn : String) :
    closeCalls (Event.engineNew src dsn :: (okEvents d 0 k ++ [Event.engineStep d]) ++
      [Event.engineClose]) = 1 := by
  have h := closeCalls_okEvents d 0 k
  simp only [closeCalls] at h
  simp [closeCalls, h]

/-! ## The batch runner: claims -/

/-- C1, as stated, fails: with batch size 3 and an engine that has one pending
migration, step call 1 succeeds and step call 2 answers `ErrNoChange`
(K = 2 ≤ N = 3), yet `migrateUp` makes 3 step calls, not 2: the loop has no
exit at the sentinel. -/
theorem early_stop_counterexample :
    (countingEngine 1).new ("file://" ++ "db") "db" = .ok 1 ∧
    Engine.reply (countingEngine 1) Direction.up 1 0 = none ∧
    Engine.reply (countingEngine 1) Direction.up 1 1 = some MigrateErr.ErrNoChange ∧
    stepCalls (migrateUp (countingEngine 1) 3 "db").events = 3 ∧
    stepCalls (migrateUp (countingEngine 1) 3 "db").events ≠ 2 := by
  have h : migrateUp (countingEngine 1) 3 "db" =
      { events := Event.engineNew ("file://" ++ "db") "db" ::
          okEvents Direction.up 0 (3 : Int).toNat ++
          [Event.print (Msg.success Direction.up), Event.engineClose],
        err := none } :=
    migrate_pass (countingEngine 1) Direction.up 3 "db" 1 rfl (by
      intro j hj
      have hj3 : j < 3 := by simpa using hj
      interval_cases j <;> decide)
  rw [h]
  refine ⟨rfl, rfl, rfl, ?_, ?_⟩ <;> decide

/-- C1, amended: the no-change sentinel is not an error and does not end the
loop.  When step calls 1..K-1 succeed, step call K answers `ErrNoChange` and
each later step call K+1..N answers `nil` or `ErrNoChange`, then `migrateUp`
(and likewise `migrateDown`) makes exactly N step calls and returns `nil`. -/
theorem noChange_does_not_stop {σ : Type} (eng : Engine σ) (N : Int) (K : Nat)
    (dbURL : String) (s0 : σ) (hK : 1 ≤ K) (hKN : (K : Int) ≤ N)
    (hnew : eng.new ("file://" ++ dbURL) dbURL = .ok s0) :
    ((∀ j, j + 1 < K → eng.reply Direction.up s0 j = none) →
      eng.reply Direction.up s0 (K - 1) = some MigrateErr.ErrNoChange →
      (∀ j, K ≤ j → (j : Int) < N →
        eng.reply Direction.up s0 j = none ∨
        eng.reply Direction.up s0 j = some MigrateErr.ErrNoChange) →
      (stepCalls (migrateUp eng N dbURL).events : Int) = N ∧
      (migrateUp eng N dbURL).err = none) ∧
    ((∀ j, j + 1 < K → eng.reply Direction.down s0 j = none) →
      eng.reply Direction.down s0 (K - 1) = some MigrateErr.ErrNoChange →
      (∀ j, K ≤ j → (j : Int) < N →
        eng.reply Direction.down s0 j = none ∨
        eng.reply Direction.down s0 j = some MigrateErr.ErrNoChange) →
      (stepCalls (migrateDown eng N dbURL).events : Int) = N ∧
      (migrateDown eng N dbURL).err = none) := by
  have key : ∀ d : Direction,
      (∀ j, j + 1 < K → eng.reply d s0 j = none) →
      eng.reply d s0 (K - 1) = some MigrateErr.ErrNoChange →
      (∀ j, K ≤ j → (j : Int) < N →
        eng.reply d s0 j = none ∨ eng.reply d s0 j = some MigrateErr.ErrNoChange) →
      (stepCalls (migrate eng d N dbURL).events : Int) = N ∧
      (migrate eng d N dbURL).err = none := by
    intro d hbefore hat hafter
    have hrep : ∀ j, j < N.toNat →
        eng.reply d s0 j = none ∨ eng.reply d s0 j = some MigrateErr.ErrNoChange := by
      intro j hj
      rcases Nat.lt_trichotomy (j + 1) K with h | h | h
      · exact Or.inl (hbefore j h)
      · have : j = K - 1 := by omega
        subst this
        exact Or.inr hat
      · exact hafter j (by omega) (by omega)
    rw [migrate_pass eng d N dbURL s0 hnew hrep]
    refine ⟨?_, rfl⟩
    rw [stepCalls_pass_events]
    omega
  exact ⟨key Direction.up, key Direction.down⟩

/-- C1, amended, at batch size 3 with one pending migration (K = 2). -/
theorem noChange_does_not_stop_witness :
    ((stepCalls (migrateUp (countingEngine 1) 3 "db").events : Int) = 3 ∧
      (migrateUp (countingEngine 1) 3 "db").err = none) ∧
    ((stepCalls (migrateDown (countingEngine 1) 3 "db").events : Int) = 3 ∧
      (migrateDown (countingEngine 1) 3 "db").err = none) :=
  ⟨(noChange_does_not_stop (countingEngine 1) 3 2 "db" 1 (by decide) (by decide) rfl).1
      (by intro j hj; have : j = 0 := by omega
          subst this; rfl)
      rfl
      (by intro j h1 h2; have : j = 2 := by omega
          subst this; decide),
   (noChange_does_not_stop (countingEngine 1) 3 2 "db" 1 (by decide) (by decide) rfl).2
      (by intro j hj; have : j = 0 := by omega
          subst this; rfl)
      rfl
      (by intro j h1 h2; have : j = 2 := by omega
          subst this; decide)⟩

/-- C2: when step calls 1..K-1 succeed and step call K (1 ≤ K ≤ N) answers an
error `e` other than `ErrNoChange`, `migrateUp` (and likewise `migrateDown`)
makes exactly K step calls, returns `e`, and calls `Close` exactly once. -/
theorem abort_on_step_error {σ : Type} (eng : Engine σ) (N : Int) (K : Nat)
    (dbURL : String) (s0 : σ) (e : MigrateErr) (hK : 1 ≤ K) (hKN : (K : Int) ≤ N)
    (hnew : eng.new ("file://" ++ dbURL) dbURL = .ok s0)
    (he : e ≠ MigrateErr.ErrNoChange) :
    ((∀ j, j + 1 < K → eng.reply Direction.up s0 j = none) →
      eng.reply Direction.up s0 (K - 1) = some e →
      stepCalls (migrateUp eng N dbURL).events = K ∧
      (migrateUp eng N dbURL).err = some e ∧
      closeCalls (migrateUp eng N dbURL).events = 1) ∧
    ((∀ j, j + 1 < K → eng.reply Direction.down s0 j = none) →
      eng.reply Direction.down s0 (K - 1) = some e →
      stepCalls (migrateDown eng N dbURL).events = K ∧
      (migrateDown eng N dbURL).err = some e ∧
      closeCalls (migrateDown eng N dbURL).events = 1) := by
  have key : ∀ d : Direction,
      (∀ j, j + 1 < K → eng.reply d s0 j = none) →
      eng.reply d s0 (K - 1) = some e →
      stepCalls (migrate eng d N dbURL).events = K ∧
      (migrate eng d N dbURL).err = some e ∧
      closeCalls (migrate eng d N dbURL).events = 1 := by
    intro d hbefore hat
    have hlt : ((K - 1 : Nat) : Int) < N := by omega
    rw [migrate_fail eng d N dbURL s0 e (K - 1) hnew he hlt
      (fun j hj => Or.inl (hbefore j (by omega))) hat]
    refine ⟨?_, rfl, ?_⟩
    · rw [stepCalls_fail_events]; omega
    · rw [closeCalls_fail_events]
  exact ⟨key Direction.up, key Direction.down⟩

/-- C2 at batch size 5 with an engine that applies two steps and then fails
(K = 3). -/
theorem abort_on_step_error_witness :
    (stepCalls (migrateUp (failingEngine 2 (MigrateErr.other "boom")) 5 "db").events = 3 ∧
      (migrateUp (failingEngine 2 (MigrateErr.other "boom")) 5 "db").err =
        some (MigrateErr.other "boom") ∧
      closeCalls (migrateUp (failingEngine 2 (MigrateErr.other "boom")) 5 "db").events = 1) ∧
    (stepCalls (migrateDown (failingEngine 2 (MigrateErr.other "boom")) 5 "db").events = 3 ∧
      (migrateDown (failingEngine 2 (MigrateErr.other "boom")) 5 "db").err =
        some (MigrateErr.other "boom") ∧
      closeCalls (migrateDown (failingEngine 2 (MigrateErr.other "boom")) 5 "db").events = 1) :=
  ⟨(abort_on_step_error (failingEngine 2 (MigrateErr.other "boom")) 5 3 "db" 2
      (MigrateErr.other "boom") (by decide) (by decide) rfl (by decide)).1
      (by intro j hj; have hj2 : j < 2 := by omega
          interval_cases j <;> rfl)
      rfl,
   (abort_on_step_error (failingEngine 2 (MigrateErr.other "boom")) 5 3 "db" 2
      (MigrateErr.other "boom") (by decide) (by decide) rfl (by decide)).2
      (by intro j hj; have hj2 : j < 2 := by omega
          interval_cases j <;> rfl)
      rfl⟩

/-- C3: when construction succeeds and every step call succeeds, `migrateUp`
(and likewise `migrateDown`) with batch size N ≥ 0 makes exactly N step calls,
prints the progress lines with indices 1, 2, ..., N in that order followed by
the final success line, and returns `nil`. -/
theorem full_batch {σ : Type} (eng : Engine σ) (N : Int) (dbURL : String) (s0 : σ)
    (hN : 0 ≤ N) (hnew : eng.new ("file://" ++ dbURL) dbURL = .ok s0) :
    ((∀ j : Nat, (j : Int) < N → eng.reply Direction.up s0 j = none) →
      (stepCalls (migrateUp eng N dbURL).events : Int) = N ∧
      printed (migrateUp eng N dbURL).events =
        (List.range N.toNat).map (fun (j : Nat) => Msg.progress Direction.up ((j : Int) + 1)) ++
          [Msg.success Direction.up] ∧
      (migrateUp eng N dbURL).err = none) ∧
    ((∀ j : Nat, (j : Int) < N → eng.reply Direction.down s0 j = none) →
      (stepCalls (migrateDown eng N dbURL).events : Int) = N ∧
      printed (migrateDown eng N dbURL).events =
        (List.range N.toNat).map (fun (j : Nat) => Msg.progress Direction.down ((j : Int) + 1)) ++
          [Msg.success Direction.down] ∧
      (migrateDown eng N dbURL).err = none) := by
  have key : ∀ d : Direction,
      (∀ j : Nat, (j : Int) < N → eng.reply d s0 j = none) →
      (stepCalls (migrate eng d N dbURL).events : Int) = N ∧
      printed (migrate eng d N dbURL).events =
        (List.range N.toNat).map (fun (j : Nat) => Msg.progress d ((j : Int) + 1)) ++
          [Msg.success d] ∧
      (migrate eng d N dbURL).err = none := by
    intro d hall
    rw [migrate_pass eng d N dbURL s0 hnew (fun j hj => Or.inl (hall j (by omega)))]
    refine ⟨?_, ?_, rfl⟩
    · rw [stepCalls_pass_events]; omega
    · rw [printed_pass_events, progressMsgs_eq_map]
      congr 1
      apply List.map_congr_left
      intro j _
      congr 1
      ring
  exact ⟨key Direction.up, key Direction.down⟩

/-- C3 at batch size 3 with five pending migrations. -/
theorem full_batch_witness :
    ((stepCalls (migrateUp (countingEngine 5) 3 "db").events : Int) = 3 ∧
      printed (migrateUp (countingEngine 5) 3 "db").events =
        (List.range (3 : Int).toNat).map
          (fun (j : Nat) => Msg.progress Direction.up ((j : Int) + 1)) ++
          [Msg.success Direction.up] ∧
      (migrateUp (countingEngine 5) 3 "db").err = none) ∧
    ((stepCalls (migrateDown (countingEngine 5) 3 "db").events : Int) = 3 ∧
      printed (migrateDown (countingEngine 5) 3 "db").events =
        (List.range (3 : Int).toNat).map
          (fun (j : Nat) => Msg.progress Direction.down ((j : Int) + 1)) ++
          [Msg.success Direction.down] ∧
      (migrateDown (countingEngine 5) 3 "db").err = none) :=
  ⟨(full_batch (countingEngine 5) 3 "db" 5 (by decide) rfl).1
      (by intro j hj; have hj3 : j < 3 := by omega
          interval_cases j <;> rfl),
   (full_batch (countingEngine 5) 3 "db" 5 (by decide) rfl).2
      (by intro j hj; have hj3 : j < 3 := by omega
          interval_cases j <;> rfl)⟩

/-- C6, evaluated on its own scenario: batch size 2 against an engine with
exactly one pending migration.  Step call 1 succeeds and step call 2 answers
`ErrNoChange`, and `migrateUp` prints two progress lines (indices 1 and 2)
before the final success line: the line "Миграция 2 выполнена." is printed for
a step call that applied nothing. -/
theorem progress_line_after_noChange :
    Engine.reply (countingEngine 1) Direction.up 1 0 = none ∧
    Engine.reply (countingEngine 1) Direction.up 1 1 = some MigrateErr.ErrNoChange ∧
    printed (migrateUp (countingEngine 1) 2 "postgres://u:p@h/db").events =
      [Msg.progress Direction.up 1, Msg.progress Direction.up 2, Msg.success Direction.up] ∧
    progressLines (migrateUp (countingEngine 1) 2 "postgres://u:p@h/db").events = 2 ∧
    (migrateUp (countingEngine 1) 2 "postgres://u:p@h/db").err = none := by
  have h : migrateUp (countingEngine 1) 2 "postgres://u:p@h/db" =
      { events := Event.engineNew ("file://" ++ "postgres://u:p@h/db") "postgres://u:p@h/db" ::
          okEvents Direction.up 0 (2 : Int).toNat ++
          [Event.print (Msg.success Direction.up), Event.engineClose],
        err := none } :=
    migrate_pass (countingEngine 1) Direction.up 2 "postgres://u:p@h/db" 1 rfl (by
      intro j hj
      have hj2 : j < 2 := by simpa using hj
      interval_cases j <;> decide)
  rw [h]
  refine ⟨rfl, rfl, ?_, ?_, rfl⟩ <;> decide

/-- C7, evaluated: the first argument of `migrate.New` is the text "file://"
followed by the connection string, in `migrateUp` and in `migrateDown`.  For
the connection string "postgres://u:p@h/db" the migrations source is
"file://postgres://u:p@h/db", and two different connection strings give two
different migration sources. -/
theorem source_uri_built_from_dsn {σ : Type} (eng : Engine σ) (N : Int) :
    (∀ dbURL : String,
      (migrateUp eng N dbURL).events.head? =
        some (Event.engineNew ("file://" ++ dbURL) dbURL) ∧
      (migrateDown eng N dbURL).events.head? =
        some (Event.engineNew ("file://" ++ dbURL) dbURL)) ∧
    (migrateUp eng N "postgres://u:p@h/db").events.head? =
      some (Event.engineNew "file://postgres://u:p@h/db" "postgres://u:p@h/db") ∧
    (migrateUp eng N "postgres://u:p@h/other").events.head? =
      some (Event.engineNew "file://postgres://u:p@h/other" "postgres://u:p@h/other") ∧
    "file://postgres://u:p@h/db" ≠ "file://postgres://u:p@h/other" := by
  refine ⟨fun dbURL => ⟨migrate_head eng Direction.up N dbURL,
    migrate_head eng Direction.down N dbURL⟩, ?_, ?_, by decide⟩
  · exact migrate_head eng Direction.up N "postgres://u:p@h/db"
  · exact migrate_head eng Direction.up N "postgres://u:p@h/other"

/-- C10: with a batch size N ≤ 0 and an engine whose construction succeeds,
`migrateUp` and `migrateDown` make no step call, print no progress line, print
the final success line, call `Close` exactly once and return `nil`; and for
every batch size and every engine the number of step calls is at most
max(N, 0). -/
theorem nonpositive_batch_is_noop {σ : Type} (eng : Engine σ) (N : Int) (dbURL : String) :
    (∀ s0 : σ, N ≤ 0 → eng.new ("file://" ++ dbURL) dbURL = .ok s0 →
      (stepCalls (migrateUp eng N dbURL).events = 0 ∧
        progressLines (migrateUp eng N dbURL).events = 0 ∧
        printed (migrateUp eng N dbURL).events = [Msg.success Direction.up] ∧
        closeCalls (migrateUp eng N dbURL).events = 1 ∧
        (migrateUp eng N dbURL).err = none) ∧
      (stepCalls (migrateDown eng N dbURL).events = 0 ∧
        progressLines (migrateDown eng N dbURL).events = 0 ∧
        printed (migrateDown eng N dbURL).events = [Msg.success Direction.down] ∧
        closeCalls (migrateDown eng N dbURL).events = 1 ∧
        (migrateDown eng N dbURL).err = none)) ∧
    (stepCalls (migrateUp eng N dbURL).events : Int) ≤ max N 0 ∧
    (stepCalls (migrateDown eng N dbURL).events : Int) ≤ max N 0 := by
  have key : ∀ (d : Direction) (s0 : σ), N ≤ 0 → eng.new ("file://" ++ dbURL) dbURL = .ok s0 →
      stepCalls (migrate eng d N dbURL).events = 0 ∧
      progressLines (migrate eng d N dbURL).events = 0 ∧
      printed (migrate eng d N dbURL).events = [Msg.success d] ∧
      closeCalls (migrate eng d N dbURL).events = 1 ∧
      (migrate eng d N dbURL).err = none := by
    intro d s0 hN hnew
    have h0 : N.toNat = 0 := by omega
    rw [migrate_pass eng d N dbURL s0 hnew (fun j hj => by omega)]
    refine ⟨?_, ?_, ?_, ?_, rfl⟩
    · rw [stepCalls_pass_events, h0]
    · rw [progressLines_pass_events, h0]
    · rw [printed_pass_events, h0]; rfl
    · rw [closeCalls_pass_events]
  have bound : ∀ d : Direction, (stepCalls (migrate eng d N dbURL).events : Int) ≤ max N 0 := by
    intro d
    have h := migrate_stepCalls_le eng d N dbURL
    have h2 : ((N.toNat : Nat) : Int) = max N 0 := Int.toNat_eq_max N
    omega
  exact ⟨fun s0 hN hnew => ⟨key Direction.up s0 hN hnew, key Direction.down s0 hN hnew⟩,
    bound Direction.up, bound Direction.down⟩

/-- C10 at batch size -2 with four pending migrations. -/
theorem nonpositive_batch_is_noop_witness :
    ((stepCalls (migrateUp (countingEngine 4) (-2) "db").events = 0 ∧
        progressLines (migrateUp (countingEngine 4) (-2) "db").events = 0 ∧
        printed (migrateUp (countingEngine 4) (-2) "db").events = [Msg.success Direction.up] ∧
        closeCalls (migrateUp (countingEngine 4) (-2) "db").events = 1 ∧
        (migrateUp (countingEngine 4) (-2) "db").err = none) ∧
      (stepCalls (migrateDown (countingEngine 4) (-2) "db").events = 0 ∧
        progressLines (migrateDown (countingEngine 4) (-2) "db").events = 0 ∧
        printed (migrateDown (countingEngine 4) (-2) "db").events =
          [Msg.success Direction.down] ∧
        closeCalls (migrateDown (countingEngine 4) (-2) "db").events = 1 ∧
        (migrateDown (countingEngine 4) (-2) "db").err = none)) ∧
    (stepCalls (migrateUp (countingEngine 4) (-2) "db").events : Int) ≤ max (-2) 0 :=
  ⟨(nonpositive_batch_is_noop (countingEngine 4) (-2) "db").1 4 (by decide) rfl,
   (nonpositive_batch_is_noop (countingEngine 4) (-2) "db").2.1⟩

/-! ## Facts about flag parsing and loadConfig -/

/-- An argument `--up` is read by `flag.Parse` as the flag `up`, which is not
registered. -/
theorem flagParse_up (parseInt : String → Option Int) (fl : Flags) (rest : List String) :
    flagParse parseInt fl ("--up" :: rest) = .error (FlagErr.notDefined "up") := by
  cases rest <;> rfl

theorem flagParse_down (parseInt : String → Option Int) (fl : Flags) (rest : List String) :
    flagParse parseInt fl ("--down" :: rest) = .error (FlagErr.notDefined "down") := by
  cases rest <;> rfl

theorem flagParse_sideways (parseInt : String → Option Int) (fl : Flags) (rest : List String) :
    flagParse parseInt fl ("--sideways" :: rest) = .error (FlagErr.notDefined "sideways") := by
  cases rest <;> rfl

/-- The result of `loadConfig` once the flags are parsed. -/
theorem loadConfig_of_parse (parseInt : String → Option Int) (args : List String)
    (env : String → Option String) (fl : Flags)
    (hparse : flagParse parseInt Flags.defaults args = .ok fl) :
    loadConfig parseInt args env =
      match resolveConfig fl env with
      | none => { events := [Event.log LogMsg.noDatabaseURL], result := .error 1 }
      | some cfg => { events := [], result := .ok cfg } := by
  simp only [loadConfig, hparse]

/-- When `loadConfig` returns a configuration it has logged nothing, the flags
were parsed, and the configuration is the one resolved from them. -/
theorem loadConfig_ok (parseInt : String → Option Int) (args : List String)
    (env : String → Option String) (cfg : Config)
    (h : (loadConfig parseInt args env).result = .ok cfg) :
    ∃ fl, flagParse parseInt Flags.defaults args = .ok fl ∧ resolveConfig fl env = some cfg ∧
      (loadConfig parseInt args env).events = [] := by
  cases hp : flagParse parseInt Flags.defaults args with
  | error e =>
    have hl : loadConfig parseInt args env =
        { events := [Event.log LogMsg.flagError], result := .error e.exitCode } := by
      simp only [loadConfig, hp]
    rw [hl] at h
    cases h
  | ok fl =>
    have hl := loadConfig_of_parse parseInt args env fl hp
    cases hr : resolveConfig fl env with
    | none =>
      rw [hl, hr] at h
      cases h
    | some c =>
      rw [hl, hr] at h
      rw [hl, hr]
      have hc : c = cfg := by injection h
      exact ⟨fl, rfl, by rw [hr, hc], rfl⟩

/-- When `loadConfig` ends the process it has logged one line. -/
theorem loadConfig_error (parseInt : String → Option Int) (args : List String)
    (env : String → Option String) (code : Nat)
    (h : (loadConfig parseInt args env).result = .error code) :
    ∃ m, (loadConfig parseInt args env).events = [Event.log m] := by
  cases hp : flagParse parseInt Flags.defaults args with
  | error e =>
    have hl : loadConfig parseInt args env =
        { events := [Event.log LogMsg.flagError], result := .error e.exitCode } := by
      simp only [loadConfig, hp]
    exact ⟨LogMsg.flagError, by rw [hl]⟩
  | ok fl =>
    have hl := loadConfig_of_parse parseInt args env fl hp
    cases hr : resolveConfig fl env with
    | none => exact ⟨LogMsg.noDatabaseURL, by rw [hl, hr]⟩
    | some c =>
      rw [hl, hr] at h
      cases h

theorem resolveConfig_some (fl : Flags) (env : String → Option String) (cfg : Config)
    (h : resolveConfig fl env = some cfg) :
    cfg.MigrationsDir =
      (if fl.migrationsDir ≠ "" then fl.migrationsDir
       else if Getenv env "MIGRATIONS_DIR" ≠ "" then Getenv env "MIGRATIONS_DIR"
       else "./migrations") ∧
    cfg.BatchSize = fl.batch ∧
    cfg.DatabaseURL =
      (if fl.dbURL ≠ "" then fl.dbURL else Getenv env "DATABASE_URL") ∧
    cfg.DatabaseURL ≠ "" := by
  unfold resolveConfig at h
  by_cases h1 : fl.migrationsDir = "" <;> by_cases h2 : Getenv env "MIGRATIONS_DIR" = "" <;>
    by_cases h3 : fl.dbURL = "" <;> by_cases h4 : Getenv env "DATABASE_URL" = "" <;>
    simp [h1, h2, h3, h4] at h <;> subst h <;> simp [h1, h2, h3, h4]

theorem resolveConfig_isSome (fl : Flags) (env : String → Option String)
    (h : fl.dbURL ≠ "" ∨ Getenv env "DATABASE_URL" ≠ "") :
    ∃ cfg, resolveConfig fl env = some cfg := by
  unfold resolveConfig
  by_cases h3 : fl.dbURL = "" <;> by_cases h4 : Getenv env "DATABASE_URL" = "" <;>
    simp [h3, h4] at h ⊢

theorem resolveConfig_none (fl : Flags) (env : String → Option String)
    (h3 : fl.dbURL = "") (h4 : Getenv env "DATABASE_URL" = "") :
    resolveConfig fl env = none := by
  unfold resolveConfig
  simp [h3, h4]

/-! ## loadConfig: claims -/

/-- C4, as stated, fails: on the command line
`--migrations-dir= --db-url=postgres://h/db` the flag `--migrations-dir` is
given (with the empty value), `MIGRATIONS_DIR` is "/srv/mig", and `loadConfig`
resolves the directory to "/srv/mig", not to the flag value "". -/
theorem flag_given_empty_counterexample :
    flagParse strconvParseInt Flags.defaults ["--migrations-dir=", "--db-url=postgres://h/db"] =
      .ok { migrationsDir := "", dbURL := "postgres://h/db", batch := 3 } ∧
    (loadConfig strconvParseInt ["--migrations-dir=", "--db-url=postgres://h/db"]
        (envOf [("MIGRATIONS_DIR", "/srv/mig")])).result =
      .ok { MigrationsDir := "/srv/mig", BatchSize := 3, DatabaseURL := "postgres://h/db" } ∧
    "/srv/mig" ≠ "" :=
  ⟨rfl, rfl, by decide⟩

/-- C4, amended: once the flags are parsed, the migrations directory resolved
by `loadConfig` is the value of `--migrations-dir` if that value is not empty,
otherwise the value of `MIGRATIONS_DIR` if it is not empty, otherwise
"./migrations"; the connection string is the value of `--db-url` if it is not
empty, otherwise the value of `DATABASE_URL`; `loadConfig` returns such a
configuration whenever one of the two connection-string sources is not empty.
Each field is a function of its own flag and variable only. -/
theorem config_precedence (parseInt : String → Option Int) (args : List String)
    (env : String → Option String) (fl : Flags)
    (hparse : flagParse parseInt Flags.defaults args = .ok fl) :
    (∀ cfg, (loadConfig parseInt args env).result = .ok cfg →
      cfg.MigrationsDir =
        (if fl.migrationsDir ≠ "" then fl.migrationsDir
         else if Getenv env "MIGRATIONS_DIR" ≠ "" then Getenv env "MIGRATIONS_DIR"
         else "./migrations") ∧
      cfg.DatabaseURL =
        (if fl.dbURL ≠ "" then fl.dbURL else Getenv env "DATABASE_URL")) ∧
    ((fl.dbURL ≠ "" ∨ Getenv env "DATABASE_URL" ≠ "") →
      ∃ cfg, (loadConfig parseInt args env).result = .ok cfg) := by
  have hl := loadConfig_of_parse parseInt args env fl hparse
  constructor
  · intro cfg h
    cases hr : resolveConfig fl env with
    | none =>
      rw [hl, hr] at h
      cases h
    | some c =>
      rw [hl, hr] at h
      have hc : c = cfg := by injection h
      subst hc
      have := resolveConfig_some fl env c hr
      exact ⟨this.1, this.2.2.1⟩
  · intro h
    obtain ⟨cfg, hcfg⟩ := resolveConfig_isSome fl env h
    exact ⟨cfg, by rw [hl, hcfg]⟩

/-- C4, amended, on the command line
`--migrations-dir ./mig --db-url postgres://u:p@h/db` with `MIGRATIONS_DIR`
and `DATABASE_URL` both set: the flags win. -/
theorem config_precedence_witness :
    (∀ cfg, (loadConfig strconvParseInt
        ["--migrations-dir", "./mig", "--db-url", "postgres://u:p@h/db"]
        (envOf [("MIGRATIONS_DIR", "/srv/mig"), ("DATABASE_URL", "postgres://env/db")])).result =
          .ok cfg →
      cfg.MigrationsDir =
        (if (Flags.mk "./mig" "postgres://u:p@h/db" 3).migrationsDir ≠ ""
         then (Flags.mk "./mig" "postgres://u:p@h/db" 3).migrationsDir
         else if Getenv (envOf [("MIGRATIONS_DIR", "/srv/mig"),
            ("DATABASE_URL", "postgres://env/db")]) "MIGRATIONS_DIR" ≠ ""
         then Getenv (envOf [("MIGRATIONS_DIR", "/srv/mig"),
            ("DATABASE_URL", "postgres://env/db")]) "MIGRATIONS_DIR"
         else "./migrations") ∧
      cfg.DatabaseURL =
        (if (Flags.mk "./mig" "postgres://u:p@h/db" 3).dbURL ≠ ""
         then (Flags.mk "./mig" "postgres://u:p@h/db" 3).dbURL
         else Getenv (envOf [("MIGRATIONS_DIR", "/srv/mig"),
            ("DATABASE_URL", "postgres://env/db")]) "DATABASE_URL")) ∧
    ∃ cfg, (loadConfig strconvParseInt
        ["--migrations-dir", "./mig", "--db-url", "postgres://u:p@h/db"]
        (envOf [("MIGRATIONS_DIR", "/srv/mig"), ("DATABASE_URL", "postgres://env/db")])).result =
          .ok cfg :=
  ⟨(config_precedence strconvParseInt ["--migrations-dir", "./mig", "--db-url", "postgres://u:p@h/db"]
      (envOf [("MIGRATIONS_DIR", "/srv/mig"), ("DATABASE_URL", "postgres://env/db")])
      (Flags.mk "./mig" "postgres://u:p@h/db" 3) rfl).1,
   (config_precedence strconvParseInt ["--migrations-dir", "./mig", "--db-url", "postgres://u:p@h/db"]
      (envOf [("MIGRATIONS_DIR", "/srv/mig"), ("DATABASE_URL", "postgres://env/db")])
      (Flags.mk "./mig" "postgres://u:p@h/db" 3) rfl).2 (Or.inl (by decide))⟩

/-! ## changeDir: facts and claim -/

/-- `changeDir` makes no call into the engine. -/
theorem changeDir_no_engine (fs : FS) (dir : String) :
    ∀ ev ∈ (changeDir fs dir).events, ev.isEngineCall = false := by
  unfold changeDir
  cases filepathAbs fs dir with
  | none => simp
  | some a =>
    dsimp only
    by_cases he : fs.exist a = false
    · simp [he]
    · cases hc : osChdir fs a with
      | none => simp [he]
      | some fs' => simp [he, Event.isEngineCall]

/-- C8, as stated, fails in its last part: with working directory "/app", a
directory "/app/migrations" and a symbolic link "/app/link" to it,
`changeDir("link")` returns `nil`, the absolute form of the path is
"/app/link", and the working directory is "/app/migrations". -/
theorem changeDir_symlink_counterexample :
    filepathAbs (fsWithLinks "/app" ["/app/migrations"] [("/app/link", "/app/migrations")])
      "link" = some "/app/link" ∧
    (changeDir (fsWithLinks "/app" ["/app/migrations"] [("/app/link", "/app/migrations")])
      "link").err = none ∧
    (changeDir (fsWithLinks "/app" ["/app/migrations"] [("/app/link", "/app/migrations")])
      "link").fs.cwd = "/app/migrations" ∧
    (changeDir (fsWithLinks "/app" ["/app/migrations"] [("/app/link", "/app/migrations")])
      "link").fs.cwd ≠ "/app/link" := by
  decide

/-- C8, amended: when the absolute form of the path does not exist, `changeDir`
returns an error and leaves the working directory as it was; it leaves it as
it was whenever it returns an error; and whenever it returns `nil` the working
directory is the directory that the absolute form of the given path leads to
once symbolic links are followed, which is the absolute form itself when no
symbolic link is involved. -/
theorem changeDir_frame (fs : FS) (dir : String) :
    (∀ absDir, filepathAbs fs dir = some absDir → fs.exist absDir = false →
      (changeDir fs dir).err = some (DirErr.notFound absDir) ∧
      (changeDir fs dir).fs.cwd = fs.cwd ∧
      (changeDir fs dir).events = []) ∧
    ((changeDir fs dir).err ≠ none → (changeDir fs dir).fs.cwd = fs.cwd) ∧
    ((changeDir fs dir).err = none →
      ∃ absDir, filepathAbs fs dir = some absDir ∧
        (changeDir fs dir).fs.cwd = fs.realpath absDir ∧
        (fs.realpath absDir = absDir → (changeDir fs dir).fs.cwd = absDir) ∧
        (changeDir fs dir).events =
          [Event.chdir absDir, Event.log (LogMsg.changedTo absDir)]) := by
  unfold changeDir
  cases ha : filepathAbs fs dir with
  | none => simp
  | some a =>
    dsimp only
    by_cases he : fs.exist a = false
    · simp [he]
    · cases hc : osChdir fs a with
      | none => simp [he]
      | some fs' =>
        have hcwd : fs'.cwd = fs.realpath a := by
          unfold osChdir at hc
          split at hc
          · injection hc with hc
            rw [← hc]
          · cases hc
        have hex : fs.exist a = true := by simpa using he
        simp only [hex, Bool.true_eq_false, if_false]
        refine ⟨?_, ?_, ?_⟩
        · intro b hb hb2
          injection hb with hb
          subst hb
          rw [hex] at hb2
          cases hb2
        · intro h
          exact absurd rfl h
        · intro _
          exact ⟨a, rfl, hcwd, fun h => by rw [hcwd, h], rfl⟩

/-- C8, amended, on a file system with working directory "/app" in which
"/app/migrations" exists and "/app/link" is a symbolic link to it: "./nowhere"
is refused and the working directory stays "/app"; "link" is entered and the
working directory becomes "/app/migrations". -/
theorem changeDir_frame_witness :
    ((changeDir (fsWithLinks "/app" ["/app/migrations"] [("/app/link", "/app/migrations")])
        "./nowhere").err = some (DirErr.notFound "/app/nowhere") ∧
      (changeDir (fsWithLinks "/app" ["/app/migrations"] [("/app/link", "/app/migrations")])
        "./nowhere").fs.cwd =
        (fsWithLinks "/app" ["/app/migrations"] [("/app/link", "/app/migrations")]).cwd ∧
      (changeDir (fsWithLinks "/app" ["/app/migrations"] [("/app/link", "/app/migrations")])
        "./nowhere").events = []) ∧
    (∃ absDir,
      filepathAbs (fsWithLinks "/app" ["/app/migrations"] [("/app/link", "/app/migrations")])
        "link" = some absDir ∧
      (changeDir (fsWithLinks "/app" ["/app/migrations"] [("/app/link", "/app/migrations")])
        "link").fs.cwd =
        (fsWithLinks "/app" ["/app/migrations"]
          [("/app/link", "/app/migrations")]).realpath absDir ∧
      ((fsWithLinks "/app" ["/app/migrations"]
          [("/app/link", "/app/migrations")]).realpath absDir = absDir →
        (changeDir (fsWithLinks "/app" ["/app/migrations"] [("/app/link", "/app/migrations")])
          "link").fs.cwd = absDir) ∧
      (changeDir (fsWithLinks "/app" ["/app/migrations"] [("/app/link", "/app/migrations")])
        "link").events = [Event.chdir absDir, Event.log (LogMsg.changedTo absDir)]) :=
  ⟨(changeDir_frame (fsWithLinks "/app" ["/app/migrations"] [("/app/link", "/app/migrations")])
      "./nowhere").1 "/app/nowhere" (by decide) (by decide),
   (changeDir_frame (fsWithLinks "/app" ["/app/migrations"] [("/app/link", "/app/migrations")])
      "link").2.2 (by decide)⟩

/-! ## main: facts and claims -/

/-- The run of `main` when `loadConfig` ends the process. -/
theorem main_of_config_error {σ : Type} (parseInt : String → Option Int) (eng : Engine σ)
    (args : List String) (env : String → Option String) (fs : FS) (code : Nat)
    (h : (loadConfig parseInt args env).result = .error code) :
    (main parseInt eng args env fs).events =
      bannerEvents ++ (loadConfig parseInt args env).events ∧
    (main parseInt eng args env fs).fs = fs ∧
    (main parseInt eng args env fs).exit = Exit.exited code := by
  unfold main
  simp only [h, and_self]

/-- The banner holds no engine call and no change of directory. -/
theorem bannerEvents_quiet :
    ∀ ev ∈ bannerEvents, ev.isChdir = false ∧ ev.isEngineCall = false := by
  decide

/-- `main` never calls the engine: a first argument `--up` or `--down` makes
`flag.Parse` end the process inside `loadConfig`, and every other run takes a
branch of `main` without a batch. -/
theorem main_no_engine_call {σ : Type} (parseInt : String → Option Int) (eng : Engine σ)
    (args : List String) (env : String → Option String) (fs : FS) :
    ∀ ev ∈ (main parseInt eng args env fs).events, ev.isEngineCall = false := by
  cases hres : (loadConfig parseInt args env).result with
  | error code =>
    obtain ⟨hev, _, _⟩ := main_of_config_error parseInt eng args env fs code hres
    obtain ⟨m, hm⟩ := loadConfig_error parseInt args env code hres
    rw [hev, hm]
    intro ev hmem
    rcases List.mem_append.1 hmem with h | h
    · exact (bannerEvents_quiet ev h).2
    · rw [List.mem_singleton] at h
      subst h
      rfl
  | ok cfg =>
    obtain ⟨fl, hparse, _, hnil⟩ := loadConfig_ok parseInt args env cfg hres
    have hdir := changeDir_no_engine fs cfg.MigrationsDir
    have hban : ∀ ev ∈ bannerEvents, ev.isEngineCall = false :=
      fun ev h => (bannerEvents_quiet ev h).2
    unfold main
    simp only [hres, hnil, List.append_nil]
    cases herr : (changeDir fs cfg.MigrationsDir).err with
    | some e =>
      simp only []
      intro ev hmem
      simp only [List.mem_append, List.mem_singleton] at hmem
      rcases hmem with (h | h) | h
      · exact hban ev h
      · exact hdir ev h
      · subst h; rfl
    | none =>
      simp only []
      cases args with
      | nil =>
        simp only []
        intro ev hmem
        simp only [List.mem_append, List.mem_singleton] at hmem
        rcases hmem with (h | h) | h
        · exact hban ev h
        · exact hdir ev h
        · subst h; rfl
      | cons arg rest =>
        simp only []
        by_cases hup : arg = "--up"
        · subst hup
          rw [flagParse_up] at hparse
          cases hparse
        · by_cases hdown : arg = "--down"
          · subst hdown
            rw [flagParse_down] at hparse
            cases hparse
          · simp only [hup, hdown, if_false]
            intro ev hmem
            simp only [List.mem_append, List.mem_singleton] at hmem
            rcases hmem with (h | h) | h
            · exact hban ev h
            · exact hdir ev h
            · subst h; rfl

/-- Every run in which `loadConfig` returns and `changeDir` succeeds ends in
the branch of `main` that only prints guidance and returns: the first
argument, if there is one, was accepted by `flag.Parse` and so is neither
`--up` nor `--down`. -/
theorem main_without_direction {σ : Type} (parseInt : String → Option Int) (eng : Engine σ)
    (args : List String) (env : String → Option String) (fs : FS) (cfg : Config)
    (hcfg : (loadConfig parseInt args env).result = .ok cfg)
    (hdir : (changeDir fs cfg.MigrationsDir).err = none) :
    (main parseInt eng args env fs).exit = Exit.returned ∧
    (main parseInt eng args env fs).events =
      bannerEvents ++ (changeDir fs cfg.MigrationsDir).events ++
        [Event.print (match args with
          | [] => Msg.needDirection
          | arg :: _ => Msg.unknownArg arg)] := by
  obtain ⟨fl, hparse, _, hnil⟩ := loadConfig_ok parseInt args env cfg hcfg
  unfold main
  simp only [hcfg, hnil, List.append_nil, hdir]
  cases args with
  | nil => exact ⟨rfl, rfl⟩
  | cons arg rest =>
    simp only []
    by_cases hup : arg = "--up"
    · subst hup
      rw [flagParse_up] at hparse
      cases hparse
    · by_cases hdown : arg = "--down"
      · subst hdown
        rw [flagParse_down] at hparse
        cases hparse
      · simp only [hup, hdown, if_false, and_self]

/-- Whenever `loadConfig` ends the process, `main` has changed no directory
and called no engine. -/
theorem main_config_error_quiet {σ : Type} (parseInt : String → Option Int) (eng : Engine σ)
    (args : List String) (env : String → Option String) (fs : FS) (code : Nat)
    (h : (loadConfig parseInt args env).result = .error code) :
    (main parseInt eng args env fs).exit = Exit.exited code ∧
    (main parseInt eng args env fs).fs = fs ∧
    ∀ ev ∈ (main parseInt eng args env fs).events,
      ev.isChdir = false ∧ ev.isEngineCall = false := by
  obtain ⟨hev, hfs, hexit⟩ := main_of_config_error parseInt eng args env fs code h
  obtain ⟨m, hm⟩ := loadConfig_error parseInt args env code h
  refine ⟨hexit, hfs, ?_⟩
  rw [hev, hm]
  intro ev hmem
  rcases List.mem_append.1 hmem with h1 | h1
  · exact bannerEvents_quiet ev h1
  · rw [List.mem_singleton] at h1
    subst h1
    exact ⟨rfl, rfl⟩

/-- C5, as stated, fails: on the command line `--help` with an empty
environment no `--db-url` value is given and `DATABASE_URL` is unset, and the
process ends inside `loadConfig` with exit status 0 (`flag.Parse` answers an
undefined `-help` with the usage text and status 0), not with a non-zero
status. -/
theorem help_exits_zero_counterexample :
    Getenv (envOf []) "DATABASE_URL" = "" ∧
    (∀ fl, flagParse strconvParseInt Flags.defaults ["--help"] = .ok fl → fl.dbURL = "") ∧
    flagParse strconvParseInt Flags.defaults ["--help"] = .error FlagErr.help ∧
    (loadConfig strconvParseInt ["--help"] (envOf [])).result = .error 0 ∧
    (main strconvParseInt (countingEngine 1) ["--help"] (envOf [])
      (fsOf "/app" ["/app/migrations"])).exit = Exit.exited 0 := by
  have hp : flagParse strconvParseInt Flags.defaults ["--help"] = .error FlagErr.help := rfl
  have hres : (loadConfig strconvParseInt ["--help"] (envOf [])).result = .error 0 := rfl
  refine ⟨rfl, ?_, hp, hres, ?_⟩
  · intro fl h
    rw [hp] at h
    cases h
  · exact (main_of_config_error strconvParseInt (countingEngine 1) ["--help"] (envOf [])
      (fsOf "/app" ["/app/migrations"]) 0 hres).2.2

/-- C5, amended: for every command line and environment in which parsing
yields no non-empty `--db-url` value and `DATABASE_URL` is empty or unset, the
process ends inside `loadConfig`, and `main` has by then changed no working
directory, constructed no engine and made no step call.  The exit status is 1
(the `log.Fatal` on the missing connection string, after the banner) when the
flags parse, and the status of `flag.Parse` when they do not: 2, except 0 for
an undefined `-h` or `-help`.  Conversely a configuration returned by
`loadConfig` never has an empty `DatabaseURL`. -/
theorem missing_database_url_ends_in_loadConfig {σ : Type} (parseInt : String → Option Int)
    (eng : Engine σ) (args : List String) (env : String → Option String) (fs : FS)
    (hflag : ∀ fl, flagParse parseInt Flags.defaults args = .ok fl → fl.dbURL = "")
    (henv : Getenv env "DATABASE_URL" = "") :
    (∃ code : Nat,
      (loadConfig parseInt args env).result = .error code ∧
      (main parseInt eng args env fs).exit = Exit.exited code ∧
      (∀ fl, flagParse parseInt Flags.defaults args = .ok fl →
        code = 1 ∧
        (main parseInt eng args env fs).events =
          bannerEvents ++ [Event.log LogMsg.noDatabaseURL]) ∧
      (∀ e, flagParse parseInt Flags.defaults args = .error e →
        code = e.exitCode ∧
        (main parseInt eng args env fs).events =
          bannerEvents ++ [Event.log LogMsg.flagError]) ∧
      (code = 0 ↔ flagParse parseInt Flags.defaults args = .error FlagErr.help)) ∧
    (∀ ev ∈ (main parseInt eng args env fs).events,
      ev.isChdir = false ∧ ev.isEngineCall = false) ∧
    (main parseInt eng args env fs).fs.cwd = fs.cwd ∧
    (∀ (args' : List String) (env' : String → Option String) (cfg : Config),
      (loadConfig parseInt args' env').result = .ok cfg → cfg.DatabaseURL ≠ "") := by
  have hconv : ∀ (args' : List String) (env' : String → Option String) (cfg : Config),
      (loadConfig parseInt args' env').result = .ok cfg → cfg.DatabaseURL ≠ "" := by
    intro args' env' cfg hok
    obtain ⟨fl', _, hr, _⟩ := loadConfig_ok parseInt args' env' cfg hok
    exact (resolveConfig_some fl' env' cfg hr).2.2.2
  cases hp : flagParse parseInt Flags.defaults args with
  | error e =>
    have hl : loadConfig parseInt args env =
        { events := [Event.log LogMsg.flagError], result := .error e.exitCode } := by
      simp only [loadConfig, hp]
    have hres : (loadConfig parseInt args env).result = .error e.exitCode := by rw [hl]
    obtain ⟨hev, _, _⟩ := main_of_config_error parseInt eng args env fs e.exitCode hres
    obtain ⟨hexit, hfs, hquiet⟩ :=
      main_config_error_quiet parseInt eng args env fs e.exitCode hres
    refine ⟨⟨e.exitCode, hres, hexit, ?_, ?_, ?_⟩, hquiet, by rw [hfs], hconv⟩
    · intro fl h
      cases h
    · intro e' h
      injection h with h
      subst h
      exact ⟨rfl, by rw [hev, hl]⟩
    · constructor
      · intro h0
        cases e <;> simp [FlagErr.exitCode] at h0
        rfl
      · intro h
        injection h with h
        subst h
        rfl
  | ok fl =>
    have hl := loadConfig_of_parse parseInt args env fl hp
    rw [resolveConfig_none fl env (hflag fl hp) henv] at hl
    have hres : (loadConfig parseInt args env).result = .error 1 := by rw [hl]
    obtain ⟨hev, _, _⟩ := main_of_config_error parseInt eng args env fs 1 hres
    obtain ⟨hexit, hfs, hquiet⟩ := main_config_error_quiet parseInt eng args env fs 1 hres
    refine ⟨⟨1, hres, hexit, ?_, ?_, ?_⟩, hquiet, by rw [hfs], hconv⟩
    · intro fl' _
      exact ⟨rfl, by rw [hev, hl]⟩
    · intro e h
      cases h
    · constructor
      · intro h
        cases h
      · intro h
        cases h

/-- C5, amended, on the command line without arguments and an empty
environment: the flags parse, and the process ends with status 1. -/
theorem missing_database_url_ends_in_loadConfig_witness :
    (∃ code : Nat,
      (loadConfig strconvParseInt [] (envOf [])).result = .error code ∧
      (main strconvParseInt (countingEngine 1) [] (envOf [])
        (fsOf "/app" ["/app/migrations"])).exit = Exit.exited code ∧
      (∀ fl, flagParse strconvParseInt Flags.defaults [] = .ok fl →
        code = 1 ∧
        (main strconvParseInt (countingEngine 1) [] (envOf [])
          (fsOf "/app" ["/app/migrations"])).events =
          bannerEvents ++ [Event.log LogMsg.noDatabaseURL]) ∧
      (∀ e, flagParse strconvParseInt Flags.defaults [] = .error e →
        code = e.exitCode ∧
        (main strconvParseInt (countingEngine 1) [] (envOf [])
          (fsOf "/app" ["/app/migrations"])).events =
          bannerEvents ++ [Event.log LogMsg.flagError]) ∧
      (code = 0 ↔ flagParse strconvParseInt Flags.defaults [] = .error FlagErr.help)) ∧
    (∀ ev ∈ (main strconvParseInt (countingEngine 1) [] (envOf [])
        (fsOf "/app" ["/app/migrations"])).events,
      ev.isChdir = false ∧ ev.isEngineCall = false) ∧
    (main strconvParseInt (countingEngine 1) [] (envOf [])
      (fsOf "/app" ["/app/migrations"])).fs.cwd = (fsOf "/app" ["/app/migrations"]).cwd ∧
    (∀ (args' : List String) (env' : String → Option String) (cfg : Config),
      (loadConfig strconvParseInt args' env').result = .ok cfg → cfg.DatabaseURL ≠ "") :=
  missing_database_url_ends_in_loadConfig strconvParseInt (countingEngine 1) [] (envOf [])
    (fsOf "/app" ["/app/migrations"])
    (fun fl h => by
      have h2 : Flags.defaults = fl := by injection h
      rw [← h2]
      rfl)
    rfl

/-- C9, evaluated: a first argument `--up` (and likewise `--down`, or the
spec's `--sideways`) is read by `flag.Parse` inside `loadConfig` as a flag
that is not defined, so the process ends there with exit status 2 after the
banner and the flag error, whatever the other arguments, the environment and
the file system are; and on no argument list at all does `main` make an engine
call, so `migrateUp` and `migrateDown` are never run. -/
theorem direction_flag_rejected {σ : Type} (parseInt : String → Option Int) (eng : Engine σ)
    (rest : List String) (env : String → Option String) (fs : FS) :
    ((main parseInt eng ("--up" :: rest) env fs).exit = Exit.exited 2 ∧
      (main parseInt eng ("--up" :: rest) env fs).events =
        bannerEvents ++ [Event.log LogMsg.flagError]) ∧
    ((main parseInt eng ("--down" :: rest) env fs).exit = Exit.exited 2 ∧
      (main parseInt eng ("--down" :: rest) env fs).events =
        bannerEvents ++ [Event.log LogMsg.flagError]) ∧
    ((main parseInt eng ("--sideways" :: rest) env fs).exit = Exit.exited 2 ∧
      (main parseInt eng ("--sideways" :: rest) env fs).events =
        bannerEvents ++ [Event.log LogMsg.flagError]) ∧
    (∀ args : List String, engineCalls (main parseInt eng args env fs).events = 0) := by
  have key : ∀ (arg name : String),
      flagParse parseInt Flags.defaults (arg :: rest) = .error (FlagErr.notDefined name) →
      (main parseInt eng (arg :: rest) env fs).exit = Exit.exited 2 ∧
      (main parseInt eng (arg :: rest) env fs).events =
        bannerEvents ++ [Event.log LogMsg.flagError] := by
    intro arg name hp
    have hl : loadConfig parseInt (arg :: rest) env =
        { events := [Event.log LogMsg.flagError], result := .error 2 } := by
      simp only [loadConfig, hp, FlagErr.exitCode]
    have hres : (loadConfig parseInt (arg :: rest) env).result = .error 2 := by rw [hl]
    obtain ⟨hev, _, hexit⟩ := main_of_config_error parseInt eng (arg :: rest) env fs 2 hres
    exact ⟨hexit, by rw [hev, hl]⟩
  exact ⟨key "--up" "up" (flagParse_up parseInt Flags.defaults rest),
    key "--down" "down" (flagParse_down parseInt Flags.defaults rest),
    key "--sideways" "sideways" (flagParse_sideways parseInt Flags.defaults rest),
    fun args => by
      rw [engineCalls, List.countP_eq_zero]
      intro ev hmem
      simp [main_no_engine_call parseInt eng args env fs ev hmem]⟩

end Migrations
